import Mathlib

/-!
Shallow embedding of the `Grid<T>` container from `src/lib/src/lib.rs`.

Conventions of the embedding:
* Rust `usize` values are modelled as `Nat`, Rust `isize` values as `Int`.
* The cast `as usize` at the end of `coords_to_index` reinterprets a
  two's-complement `isize` as a `usize`; arithmetic on `isize` wraps at
  `2 ^ 64` in the source's release profile, and composing the wrapping
  operations is the same as reducing the exact integer result modulo
  `2 ^ 64`.  We therefore compute the exact `Int` value and reduce it
  modulo `USIZE = 2 ^ 64` (the result of `Int.emod` by a positive modulus
  is non-negative, matching the unsigned reinterpretation).
* `Vec<T>` is a `List T`; `Vec::get` is `List.getElem?`, which is `none`
  exactly when the index is out of range, and `Vec::get_mut` failure makes
  `set` return the error without touching the storage.
* Rust's `Result<(), ()>` is `Except Unit Unit`; since `Grid::set` mutates
  `self`, the model returns the pair of the result and the updated grid.
* `usize` arithmetic wraps the same way in the release profile:
  `width * height` in `new`, and `row_idx * width` and the slice end in
  `get_row`, are reduced modulo `2 ^ 64`.
* Slice indexing in `get_row` panics when the (wrapped) range is invalid
  or exceeds the buffer; the model returns an `Option`, with `none`
  standing for the panic.
-/

/-- The number of values of the 64-bit `usize` / `isize` types. -/
def USIZE : Nat := 2 ^ 64

/-- The `Grid` struct: `grid: Vec<T>`, `grid_size: (usize, usize)`
(width, height), `offset: usize`. -/
structure Grid (T : Type) where
  grid : List T
  grid_size : Nat × Nat
  offset : Nat
deriving DecidableEq

/-- `Grid::new(width, height, x_offset, y_offset)`: the construction loop
inserts `width * height` default elements, and
`offset = y_offset * height + x_offset` (the source multiplies by `height`,
not `width`).  Both `usize` computations wrap modulo `2 ^ 64` in the
source's release profile, so an overflowing `width * height` yields a
buffer of the wrapped length (e.g. a `2^32 × 2^32` request allocates an
empty buffer). -/
def Grid.new (T : Type) [Inhabited T]
    (width height x_offset y_offset : Nat) : Grid T :=
  { grid := List.replicate ((width * height) % USIZE) default
    grid_size := (width, height)
    offset := (y_offset * height + x_offset) % USIZE }

/-- `Grid::coords_to_index`:
`((y * self.grid_size.0 as isize + x) + self.offset as isize) as usize`.
The exact integer value is reduced modulo `2 ^ 64`, modelling the wrapping
`isize` arithmetic followed by the bit-reinterpreting cast to `usize`. -/
def Grid.coords_to_index (g : Grid T) (x y : Int) : Nat :=
  (((y * (g.grid_size.1 : Int) + x) + (g.offset : Int)) % (USIZE : Int)).toNat

/-- `Grid::check_bounds`: with `offset == 0` the coordinate must satisfy
`x < width && y < height && x >= 0 && y >= 0`; with any nonzero offset the
check unconditionally succeeds. -/
def Grid.check_bounds (g : Grid T) (x y : Int) : Bool :=
  if g.offset == 0 then
    decide (x < (g.grid_size.1 : Int)) && decide (y < (g.grid_size.2 : Int))
      && decide (x ≥ 0) && decide (y ≥ 0)
  else
    true

/-- `Grid::get`: `None` when `check_bounds` fails, otherwise `Vec::get` at
the computed index (`None` when the index has no backing slot). -/
def Grid.get (g : Grid T) (x y : Int) : Option T :=
  if ¬ g.check_bounds x y then none
  else g.grid[g.coords_to_index x y]?

/-- `Grid::set`: `Err(())` when `check_bounds` fails; otherwise write
through `Vec::get_mut`, which succeeds exactly when the computed index is
in range of the buffer and otherwise leaves the buffer untouched.  The
model returns the `Result` together with the (possibly updated) grid. -/
def Grid.set (g : Grid T) (x y : Int) (item : T) : Except Unit Unit × Grid T :=
  if ¬ g.check_bounds x y then (Except.error (), g)
  else
    let index := g.coords_to_index x y
    if index < g.grid.length then
      (Except.ok (), { g with grid := g.grid.set index item })
    else
      (Except.error (), g)

/-- `Grid::get_row(row_idx)`: the slice `&self.grid[row_idx*width ..
row_idx*width + width]`.  The `usize` product and sum wrap modulo `2 ^ 64`
in the source's release profile; range slicing panics (modelled as `none`)
unless `start ≤ end ≤ len`, and otherwise returns the elements in
`[start, end)`. -/
def Grid.get_row (g : Grid T) (row_idx : Nat) : Option (List T) :=
  let width := g.grid_size.1
  let offset := (row_idx * width) % USIZE
  let stop := (offset + width) % USIZE
  if offset ≤ stop ∧ stop ≤ g.grid.length then
    some ((g.grid.drop offset).take (stop - offset))
  else
    none

/-- `GridIteratorItem`: the yielded element together with its logical
coordinates. -/
structure GridIteratorItem (T : Type) where
  element : T
  x : Int
  y : Int
deriving DecidableEq

/-- `GridIntoIterator`: the grid being traversed and the cursor `(x, y)`. -/
structure GridIntoIterator (T : Type) where
  grid : Grid T
  x : Int
  y : Int
deriving DecidableEq

/-- One call of `Iterator::next` for `GridIntoIterator` (the source mutates
`self` and returns an `Option`; the model returns the option together with
the updated iterator state).  When `x` has reached the width the cursor
wraps to the next row, returning `None` once `y` reaches the height;
otherwise the cell is fetched with `Vec::get` (so a missing backing slot
also yields `None`) and `x` advances. -/
def GridIntoIterator.next (it : GridIntoIterator T) :
    Option (GridIteratorItem T) × GridIntoIterator T :=
  if it.x = (it.grid.grid_size.1 : Int) then
    let y := it.y + 1
    if y = (it.grid.grid_size.2 : Int) then
      (none, { it with x := 0, y := y })
    else
      let index := it.grid.coords_to_index 0 y
      let cell := (it.grid.grid[index]?).map fun e =>
        { element := e, x := 0, y := y }
      (cell, { it with x := 1, y := y })
  else
    let index := it.grid.coords_to_index it.x it.y
    let cell := (it.grid.grid[index]?).map fun e =>
      { element := e, x := it.x, y := it.y }
    (cell, { it with x := it.x + 1 })

/-- `IntoIterator::into_iter` for `Grid`: cursor at `(0, 0)`. -/
def Grid.into_iter (g : Grid T) : GridIntoIterator T :=
  { grid := g, x := 0, y := 0 }

/-- `Grid::iter`: iterates over a clone of the grid, cursor at `(0, 0)`.
Cloning is the identity in the pure model. -/
def Grid.iter (g : Grid T) : GridIntoIterator T :=
  { grid := g, x := 0, y := 0 }

/-- Driving loop of a consumer (`for`, `count`, `collect`): call `next`
repeatedly, collecting the yielded items, stopping at the first `None`.
`fuel` bounds the number of calls; every theorem below holds for every
sufficiently large fuel, which expresses termination of the traversal. -/
def GridIntoIterator.run : GridIntoIterator T → Nat → List (GridIteratorItem T)
  | _, 0 => []
  | it, fuel + 1 =>
    match it.next with
    | (none, _) => []
    | (some c, it2) => c :: it2.run fuel

/-- The logical position carried by a yielded item. -/
def GridIteratorItem.pos (it : GridIteratorItem T) : Int × Int := (it.x, it.y)

/-! Helper lemmas about the coordinate translation. -/

/-- On non-negative coordinates `coords_to_index` is the row-major index
plus the offset, reduced modulo `2 ^ 64`. -/
lemma Grid.coords_to_index_natCast (g : Grid T) (x y : Nat) :
    g.coords_to_index (x : Int) (y : Int)
      = (y * g.grid_size.1 + x + g.offset) % USIZE := by
  unfold Grid.coords_to_index
  have hcast : ((y : Int) * (g.grid_size.1 : Int) + (x : Int) + (g.offset : Int))
      = ((y * g.grid_size.1 + x + g.offset : Nat) : Int) := by
    push_cast
    ring
  rw [hcast, ← Int.ofNat_emod, Int.toNat_ofNat]

/-- The reduction modulo `2 ^ 64` never increases the index. -/
lemma Grid.coords_to_index_le (g : Grid T) (x y : Nat) :
    g.coords_to_index (x : Int) (y : Int) ≤ y * g.grid_size.1 + x + g.offset := by
  rw [Grid.coords_to_index_natCast]
  exact Nat.mod_le _ _

/-- Below `2 ^ 64` the reduction is the identity. -/
lemma Grid.coords_to_index_eq (g : Grid T) (x y : Nat)
    (h : y * g.grid_size.1 + x + g.offset < USIZE) :
    g.coords_to_index (x : Int) (y : Int) = y * g.grid_size.1 + x + g.offset := by
  rw [Grid.coords_to_index_natCast]
  exact Nat.mod_eq_of_lt h

/-! Claim theorems. -/

/-- C4 counterexample: `Grid::new(5, 0, 0, 3)` is constructed with the
requested offset pair `(0, 3) ≠ (0, 0)`, yet its stored offset is
`3 * 0 + 0 = 0`, so bounds checking stays active and `(-1, 0)` is reported
out-of-bounds. -/
theorem requested_offset_pair_counterexample :
    ((0, 3) : Nat × Nat) ≠ (0, 0) ∧
    (Grid.new Bool 5 0 0 3).offset = 0 ∧
    (Grid.new Bool 5 0 0 3).check_bounds (-1) 0 = false ∧
    (Grid.new Bool 5 0 0 3).get (-1) 0 = none := by decide

/-- C4 (amended): for every grid whose stored offset is nonzero, bounds
checking is disabled for every coordinate, and any failure of `get` or
`set` is due to a missing backing slot, never to an out-of-bounds report. -/
theorem offset_disables_bounds (g : Grid T) (hoff : g.offset ≠ 0)
    (x y : Int) (v : T) :
    g.check_bounds x y = true ∧
    ((g.set x y v).1 = Except.error () →
      g.grid.length ≤ g.coords_to_index x y) ∧
    (g.get x y = none → g.grid.length ≤ g.coords_to_index x y) := by
  have hb : g.check_bounds x y = true := by
    simp [Grid.check_bounds, hoff]
  refine ⟨hb, ?_, ?_⟩
  · intro h
    by_cases hlt : g.coords_to_index x y < g.grid.length
    · simp [Grid.set, hb, hlt] at h
    · omega
  · intro h
    simpa [Grid.get, hb, List.getElem?_eq_none_iff] using h

/-- C4 witness: on `Grid::new(5, 5, 2, 2)` the coordinate `(-2, -2)` passes
the policy, `set(-2, -2, true)` succeeds, and `get(-2, -2)` then returns
`true`. -/
theorem offset_disables_bounds_witness :
    (Grid.new Bool 5 5 2 2).check_bounds (-2) (-2) = true ∧
    ((Grid.new Bool 5 5 2 2).set (-2) (-2) true).1 = Except.ok () ∧
    ((Grid.new Bool 5 5 2 2).set (-2) (-2) true).2.get (-2) (-2) = some true :=
  ⟨(offset_disables_bounds (Grid.new Bool 5 5 2 2) (by decide) (-2) (-2) true).1,
   rfl, by decide⟩

/-- C5 counterexample: the buffer size `width * height` wraps at `2 ^ 64`
in the release profile, so `Grid::new(2^32, 2^32, 0, 0)` builds an empty
grid and the in-range coordinate `(0, 0)` yields `none`, not the default
value, refuting the claim for arbitrary widths and heights. -/
theorem new_overflow_counterexample :
    (0 : Int) < ((2 ^ 32 : Nat) : Int) ∧
    (Grid.new Bool (2 ^ 32) (2 ^ 32) 0 0).grid = [] ∧
    (Grid.new Bool (2 ^ 32) (2 ^ 32) 0 0).get 0 0 = none := by
  refine ⟨by decide, by decide, by decide⟩

/-- C5 (amended): provided the buffer size `width * height` does not
overflow `usize` (which holds for every grid the program can actually
populate), a freshly constructed zero-offset grid returns the default
value on every coordinate inside `[0, w) × [0, h)`; and for all widths and
heights without restriction it returns `none` on every coordinate outside
that range. -/
theorem new_zero_offset_get (T : Type) [Inhabited T] (w h : Nat) (x y : Int) :
    (w * h < USIZE → 0 ≤ x → x < (w : Int) → 0 ≤ y → y < (h : Int) →
      (Grid.new T w h 0 0).get x y = some default) ∧
    ((x < 0 ∨ (w : Int) ≤ x ∨ y < 0 ∨ (h : Int) ≤ y) →
      (Grid.new T w h 0 0).get x y = none) := by
  have hoffeq : ((Grid.new T w h 0 0).offset == 0) = true := by
    simp [Grid.new]
  constructor
  · intro h64 hx0 hxw hy0 hyh
    have hb : (Grid.new T w h 0 0).check_bounds x y = true := by
      unfold Grid.check_bounds
      rw [if_pos hoffeq]
      simp only [Bool.and_eq_true, decide_eq_true_eq, ge_iff_le]
      exact ⟨⟨⟨hxw, hyh⟩, hx0⟩, hy0⟩
    obtain ⟨a, rfl⟩ := Int.eq_ofNat_of_zero_le hx0
    obtain ⟨b, rfl⟩ := Int.eq_ofNat_of_zero_le hy0
    have ha : a < w := by exact_mod_cast hxw
    have hbh : b < h := by exact_mod_cast hyh
    have hq : b * w + a + 0 < w * h := by
      have h1 : b * w + a + 0 < (b + 1) * w := by
        rw [Nat.succ_mul]
        omega
      have h2 : (b + 1) * w ≤ h * w := Nat.mul_le_mul_right w hbh
      rw [Nat.mul_comm w h]
      omega
    have hidx : (Grid.new T w h 0 0).coords_to_index a b < w * h := by
      have hle := (Grid.new T w h 0 0).coords_to_index_le a b
      have hw1 : (Grid.new T w h 0 0).grid_size.1 = w := rfl
      have hoff : (Grid.new T w h 0 0).offset = 0 := by simp [Grid.new]
      rw [hw1, hoff] at hle
      omega
    have hget : (Grid.new T w h 0 0).get a b
        = (Grid.new T w h 0 0).grid[(Grid.new T w h 0 0).coords_to_index a b]? := by
      simp [Grid.get, hb]
    have hgrid : (Grid.new T w h 0 0).grid
        = List.replicate (w * h) (default : T) := by
      show List.replicate ((w * h) % USIZE) (default : T) = _
      rw [Nat.mod_eq_of_lt h64]
    rw [hget, hgrid]
    exact List.getElem?_replicate_of_lt hidx
  · intro hout
    have hb : (Grid.new T w h 0 0).check_bounds x y = false := by
      unfold Grid.check_bounds
      rw [if_pos hoffeq]
      simp only [← Bool.decide_and, decide_eq_false_iff_not, ge_iff_le]
      have hw1 : (Grid.new T w h 0 0).grid_size.1 = w := rfl
      have hh1 : (Grid.new T w h 0 0).grid_size.2 = h := rfl
      rw [hw1, hh1]
      omega
    simp [Grid.get, hb]

/-- C5 witness: a fresh `3 × 2` boolean grid on an inside and an outside
coordinate. -/
theorem new_zero_offset_get_witness :
    (Grid.new Bool 3 2 0 0).get 1 1 = some false ∧
    (Grid.new Bool 3 2 0 0).get (-1) 0 = none :=
  ⟨(new_zero_offset_get Bool 3 2 1 1).1 (by decide) (by decide) (by decide)
      (by decide) (by decide),
   (new_zero_offset_get Bool 3 2 (-1) 0).2 (Or.inl (by decide))⟩

/-- C7: whenever `set` returns the rejection error — bounds failure or
missing backing slot — the grid (storage, dimensions, and offset alike) is
exactly as before the call. -/
theorem set_error_frame (g : Grid T) (x y : Int) (v : T)
    (h : (g.set x y v).1 = Except.error ()) : (g.set x y v).2 = g := by
  by_cases hb : g.check_bounds x y = true
  · by_cases hlt : g.coords_to_index x y < g.grid.length
    · simp [Grid.set, hb, hlt] at h
    · simp [Grid.set, hb, hlt]
  · simp [Grid.set, hb]

/-- C7 witness: a bounds-rejected `set` on a zero-offset grid leaves the
grid equal to the original. -/
theorem set_error_frame_witness :
    ((Grid.new Bool 5 5 0 0).set (-1) 0 true).2 = Grid.new Bool 5 5 0 0 :=
  set_error_frame (Grid.new Bool 5 5 0 0) (-1) 0 true rfl

/-- C8: `get` and `set` are total — `get` returns `none` exactly on the
failure cases (bounds rejection or missing backing slot) and otherwise the
looked-up element, and `set` returns the error exactly on the same cases
and otherwise `Ok`; no other outcome (in particular no panic) exists. -/
theorem get_set_total (g : Grid T) (x y : Int) (v : T) :
    (g.get x y = none ↔
      (g.check_bounds x y = false ∨ g.grid.length ≤ g.coords_to_index x y)) ∧
    (g.get x y = g.grid[g.coords_to_index x y]? ∨ g.get x y = none) ∧
    ((g.set x y v).1 = Except.error () ↔
      (g.check_bounds x y = false ∨ g.grid.length ≤ g.coords_to_index x y)) ∧
    ((g.set x y v).1 = Except.ok () ∨ (g.set x y v).1 = Except.error ()) := by
  by_cases hb : g.check_bounds x y = true
  · by_cases hlt : g.coords_to_index x y < g.grid.length
    · refine ⟨?_, Or.inl ?_, ?_, Or.inl ?_⟩ <;>
        simp [Grid.get, Grid.set, hb, hlt, List.getElem?_eq_getElem hlt]
    · refine ⟨?_, Or.inl ?_, ?_, Or.inr ?_⟩ <;>
        simp [Grid.get, Grid.set, hb, hlt, List.getElem?_eq_none (Nat.not_lt.mp hlt),
          Nat.not_lt.mp hlt]
  · have hb2 : g.check_bounds x y = false := by
      cases hcb : g.check_bounds x y
      · rfl
      · exact absurd hcb hb
    refine ⟨?_, Or.inr ?_, ?_, Or.inr ?_⟩ <;> simp [Grid.get, Grid.set, hb2]

/-- C8 witness: an out-of-range coordinate on a concrete grid yields
`none`. -/
theorem get_set_total_witness :
    (Grid.new Bool 2 2 0 0).get 5 5 = none :=
  (get_set_total (Grid.new Bool 2 2 0 0) 5 5 true).1.mpr (Or.inl (by decide))

/-- C9 counterexample: `get_row(r)` can succeed with `r ≥ height`.  On the
`0 × 0` grid, `get_row(5)` returns the empty slice because `width = 0`
makes the slice `[0 .. 0]` valid on the empty buffer; and on a `2 × 3`
grid, `get_row(2^63 + 1)` wraps `row_idx * width` to offset `2` and
returns the slice `[2 .. 4]` without failing. -/
theorem get_row_degenerate_counterexample :
    ((Grid.new Bool 0 0 0 0).grid_size.2 ≤ 5 ∧
      (Grid.new Bool 0 0 0 0).get_row 5 = some []) ∧
    ((Grid.new Bool 2 3 0 0).grid_size.2 ≤ 2 ^ 63 + 1 ∧
      (Grid.new Bool 2 3 0 0).get_row (2 ^ 63 + 1) = some [false, false]) := by
  refine ⟨⟨by decide, by decide⟩, ⟨by decide, by decide⟩⟩

/-- C9 (amended): given the storage invariant `length = width * height`
and that the buffer size fits in `usize`, `get_row(r)` for `r < height`
returns exactly `width` elements equal to the physical buffer slice
`[r*width, r*width + width)`; for `r ≥ height` it fails whenever
`width ≥ 1` and the index arithmetic `r*width + width` does not overflow
`usize` (with `width = 0` every row read trivially succeeds with the empty
slice, and an overflowing `r*width` can wrap back inside the buffer and
succeed). -/
theorem get_row_spec (g : Grid T) (w h r : Nat)
    (hsz : g.grid_size = (w, h)) (hlen : g.grid.length = w * h)
    (h64 : w * h < USIZE) :
    (r < h →
      g.get_row r = some ((g.grid.drop (r * w)).take w) ∧
      ((g.grid.drop (r * w)).take w).length = w) ∧
    (h ≤ r → 1 ≤ w → r * w + w < USIZE → g.get_row r = none) := by
  constructor
  · intro hr
    have hle : r * w + w ≤ w * h := by
      have h1 : (r + 1) * w ≤ h * w := Nat.mul_le_mul_right w hr
      have h2 : r * w + w = (r + 1) * w := (Nat.succ_mul r w).symm
      have h3 : h * w = w * h := Nat.mul_comm h w
      omega
    have hmod1 : (r * w) % USIZE = r * w := Nat.mod_eq_of_lt (by omega)
    have hmod2 : ((r * w) % USIZE + w) % USIZE = r * w + w := by
      rw [hmod1]
      exact Nat.mod_eq_of_lt (by omega)
    constructor
    · simp only [Grid.get_row, hsz]
      rw [hmod2, hmod1, hlen]
      rw [if_pos (show r * w ≤ r * w + w ∧ r * w + w ≤ w * h from
        ⟨by omega, by omega⟩)]
      rw [show r * w + w - r * w = w from by omega]
    · have h4 : w + r * w ≤ w * h := by omega
      have h5 : w ≤ w * h - r * w := Nat.le_sub_of_add_le h4
      rw [List.length_take, List.length_drop, hlen, Nat.min_eq_left h5]
  · intro hr hw hr64
    have hgt : w * h < r * w + w := by
      have h1 : (h + 1) * w ≤ (r + 1) * w := Nat.mul_le_mul_right w (by omega)
      have h2 : h * w + w = (h + 1) * w := (Nat.succ_mul h w).symm
      have h3 : r * w + w = (r + 1) * w := (Nat.succ_mul r w).symm
      have h4 : h * w = w * h := Nat.mul_comm h w
      omega
    have hmod1 : (r * w) % USIZE = r * w := Nat.mod_eq_of_lt (by omega)
    have hmod2 : ((r * w) % USIZE + w) % USIZE = r * w + w := by
      rw [hmod1]
      exact Nat.mod_eq_of_lt hr64
    simp only [Grid.get_row, hsz]
    rw [hmod2, hmod1, hlen]
    rw [if_neg (by omega)]

/-- C9 witness: row `1` of a fresh `2 × 2` grid is the second physical
pair of cells, and row `2` is rejected. -/
theorem get_row_spec_witness :
    (Grid.new Bool 2 2 0 0).get_row 1
      = some (((Grid.new Bool 2 2 0 0).grid.drop (1 * 2)).take 2) ∧
    (Grid.new Bool 2 2 0 0).get_row 2 = none :=
  ⟨((get_row_spec (Grid.new Bool 2 2 0 0) 2 2 1 rfl (by decide) (by decide)).1
      (by decide)).1,
   (get_row_spec (Grid.new Bool 2 2 0 0) 2 2 2 rfl (by decide) (by decide)).2
      (by decide) (by decide) (by decide)⟩

/-! Iterator machinery: computing one `next` step in each cursor shape,
and the row-major enumeration the traversal is compared against. -/

/-- The row-major positions from `p` (inclusive) up to `n` (exclusive): the
signed pairs `(k % w, k / w)` for `k = p, …, n - 1`. -/
def rowMajorFrom (w p n : Nat) : List (Int × Int) :=
  (List.range' p (n - p)).map fun k => (((k % w : Nat) : Int), ((k / w : Nat) : Int))

lemma rowMajorFrom_eq_nil (w p n : Nat) (h : n ≤ p) : rowMajorFrom w p n = [] := by
  unfold rowMajorFrom
  rw [Nat.sub_eq_zero_of_le h]
  rfl

lemma rowMajorFrom_cons (w p n : Nat) (h : p < n) :
    rowMajorFrom w p n
      = (((p % w : Nat) : Int), ((p / w : Nat) : Int)) :: rowMajorFrom w (p + 1) n := by
  unfold rowMajorFrom
  have h1 : n - p = (n - (p + 1)) + 1 := by omega
  rw [h1, List.range'_succ]
  rfl

lemma rowMajorFrom_length (w p n : Nat) : (rowMajorFrom w p n).length = n - p := by
  unfold rowMajorFrom
  rw [List.length_map, List.length_range']

lemma rowMajorFrom_nodup (w p n : Nat) : (rowMajorFrom w p n).Nodup := by
  apply List.Nodup.map
  · intro a b hab
    obtain ⟨h1, h2⟩ := Prod.mk.injEq _ _ _ _ ▸ hab
    have hm : a % w = b % w := by exact_mod_cast h1
    have hd : a / w = b / w := by exact_mod_cast h2
    calc a = w * (a / w) + a % w := (Nat.div_add_mod a w).symm
      _ = w * (b / w) + b % w := by rw [hm, hd]
      _ = b := Nat.div_add_mod b w
  · exact List.nodup_range' _ _

lemma GridIntoIterator.run_zero (it : GridIntoIterator T) : it.run 0 = [] := rfl

lemma GridIntoIterator.run_succ_some (it : GridIntoIterator T) (fuel : Nat)
    (c : GridIteratorItem T) (it2 : GridIntoIterator T)
    (h : it.next = (some c, it2)) : it.run (fuel + 1) = c :: it2.run fuel := by
  show (match it.next with
    | (none, _) => []
    | (some c, it2) => c :: it2.run fuel) = c :: it2.run fuel
  rw [h]

lemma GridIntoIterator.run_succ_none (it : GridIntoIterator T) (fuel : Nat)
    (it2 : GridIntoIterator T) (h : it.next = (none, it2)) :
    it.run (fuel + 1) = [] := by
  show (match it.next with
    | (none, _) => []
    | (some c, it2) => c :: it2.run fuel) = []
  rw [h]

/-- `next` in the middle of a row (`x < width`): fetch the cell at the
translated index and advance `x`. -/
lemma GridIntoIterator.next_mid (g : Grid T) (w h : Nat)
    (hsz : g.grid_size = (w, h)) (x y : Nat) (hx : x < w) :
    (GridIntoIterator.mk g (x : Int) (y : Int)).next
      = ((g.grid[g.coords_to_index (x : Int) (y : Int)]?).map
          (fun e => { element := e, x := (x : Int), y := (y : Int) }),
         GridIntoIterator.mk g ((x + 1 : Nat) : Int) (y : Int)) := by
  have hne : ¬ (((x : Nat) : Int) = ((g.grid_size.1 : Nat) : Int)) := by
    rw [hsz]
    exact_mod_cast Nat.ne_of_lt hx
  unfold GridIntoIterator.next
  rw [if_neg hne]
  rfl

/-- `next` at the end of the last row: wrap, notice `y + 1 = height`, and
stop. -/
lemma GridIntoIterator.next_wrap_stop (g : Grid T) (w h : Nat)
    (hsz : g.grid_size = (w, h)) (y : Nat) (hy : y + 1 = h) :
    (GridIntoIterator.mk g (w : Int) (y : Int)).next
      = (none, GridIntoIterator.mk g 0 ((y : Int) + 1)) := by
  have he : ((w : Nat) : Int) = ((g.grid_size.1 : Nat) : Int) := by rw [hsz]
  have hh : ((y : Nat) : Int) + 1 = ((g.grid_size.2 : Nat) : Int) := by
    rw [hsz]
    exact_mod_cast hy
  unfold GridIntoIterator.next
  rw [if_pos he, if_pos hh]

/-- `next` at the end of a non-final row: wrap to the next row, fetch the
cell at the translated index of `(0, y + 1)`, and set `x` to `1`. -/
lemma GridIntoIterator.next_wrap_go (g : Grid T) (w h : Nat)
    (hsz : g.grid_size = (w, h)) (y : Nat) (hy : y + 1 ≠ h) :
    (GridIntoIterator.mk g (w : Int) (y : Int)).next
      = ((g.grid[g.coords_to_index ((0 : Nat) : Int) ((y + 1 : Nat) : Int)]?).map
          (fun e => { element := e, x := ((0 : Nat) : Int), y := ((y + 1 : Nat) : Int) }),
         GridIntoIterator.mk g ((1 : Nat) : Int) ((y + 1 : Nat) : Int)) := by
  have he : ((w : Nat) : Int) = ((g.grid_size.1 : Nat) : Int) := by rw [hsz]
  have hh : ¬ (((y : Nat) : Int) + 1 = ((g.grid_size.2 : Nat) : Int)) := by
    rw [hsz]
    exact_mod_cast hy
  unfold GridIntoIterator.next
  rw [if_pos he, if_neg hh]
  rfl

/-- The translated index of a non-negative coordinate, in terms of the
dimensions and offset, assuming it stays below `2 ^ 64`. -/
lemma coords_to_index_rowmajor (g : Grid T) (w h o : Nat)
    (hsz : g.grid_size = (w, h)) (hoff : g.offset = o) (x y : Nat)
    (hb : y * w + x + o < USIZE) :
    g.coords_to_index (x : Int) (y : Int) = y * w + x + o := by
  have h1 : y * g.grid_size.1 + x + g.offset = y * w + x + o := by
    rw [hsz, hoff]
  rw [Grid.coords_to_index_eq g x y (by rw [h1]; exact hb), h1]

/-- Main traversal lemma, by induction on the fuel.  Two cursor shapes are
reachable: mid-row (`x < w`, about to read logical position `y*w + x`) and
end-of-row (`x = w`, about to wrap and read position `y*w + w`).  From
either shape, with enough fuel, the run yields the elements at physical
indices `q + o, …, w*h - 1` (i.e. `g.grid.drop (q + o)`), labelled with the
row-major positions `q, …, (w*h - o) - 1`, where `q` is the next logical
position and `o` the stored offset with `o ≤ w*h`. -/
lemma run_spec (g : Grid T) (w h o : Nat)
    (hsz : g.grid_size = (w, h)) (hoff : g.offset = o)
    (hlen : g.grid.length = w * h) (ho : o ≤ w * h) (h64 : w * h < USIZE)
    (fuel : Nat) :
    (∀ x y : Nat, x < w → y * w + x ≤ w * h - o → w * h - o ≤ y * w + x + fuel →
      ((GridIntoIterator.mk g (x : Int) (y : Int)).run fuel).map
          (fun it => it.element) = g.grid.drop (y * w + x + o) ∧
      ((GridIntoIterator.mk g (x : Int) (y : Int)).run fuel).map
          GridIteratorItem.pos = rowMajorFrom w (y * w + x) (w * h - o)) ∧
    (∀ y : Nat, y * w + w ≤ w * h - o → w * h - o ≤ y * w + w + fuel →
      ((GridIntoIterator.mk g (w : Int) (y : Int)).run fuel).map
          (fun it => it.element) = g.grid.drop (y * w + w + o) ∧
      ((GridIntoIterator.mk g (w : Int) (y : Int)).run fuel).map
          GridIteratorItem.pos = rowMajorFrom w (y * w + w) (w * h - o)) := by
  induction fuel with
  | zero =>
      constructor
      · intro x y hx hq hstop
        refine ⟨?_, ?_⟩
        · rw [GridIntoIterator.run_zero, List.map_nil]
          symm
          apply List.drop_eq_nil_of_le
          rw [hlen]
          omega
        · rw [GridIntoIterator.run_zero, List.map_nil]
          symm
          exact rowMajorFrom_eq_nil w _ _ (by omega)
      · intro y hq hstop
        refine ⟨?_, ?_⟩
        · rw [GridIntoIterator.run_zero, List.map_nil]
          symm
          apply List.drop_eq_nil_of_le
          rw [hlen]
          omega
        · rw [GridIntoIterator.run_zero, List.map_nil]
          symm
          exact rowMajorFrom_eq_nil w _ _ (by omega)
  | succ n ih =>
      obtain ⟨ihA, ihB⟩ := ih
      constructor
      · -- mid-row shape
        intro x y hx hq hstop
        have hidx : g.coords_to_index (x : Int) (y : Int) = y * w + x + o :=
          coords_to_index_rowmajor g w h o hsz hoff x y (by omega)
        by_cases hqlt : y * w + x < w * h - o
        · -- a cell is yielded
          have hlt : y * w + x + o < g.grid.length := by
            rw [hlen]
            omega
          obtain ⟨e, he⟩ : ∃ e,
              g.grid[g.coords_to_index (x : Int) (y : Int)]? = some e := by
            rw [hidx]
            exact ⟨_, List.getElem?_eq_getElem hlt⟩
          have hnext : (GridIntoIterator.mk g (x : Int) (y : Int)).next
              = (some { element := e, x := (x : Int), y := (y : Int) },
                 GridIntoIterator.mk g ((x + 1 : Nat) : Int) (y : Int)) := by
            rw [GridIntoIterator.next_mid g w h hsz x y hx, he]
            rfl
          have hrun := GridIntoIterator.run_succ_some _ n _ _ hnext
          have hdrop : g.grid.drop (y * w + x + o)
              = e :: g.grid.drop (y * w + x + o + 1) := by
            rw [List.drop_eq_getElem_cons hlt]
            congr 1
            have h2 : g.grid[y * w + x + o]? = some e := by
              rw [← hidx]
              exact he
            rw [List.getElem?_eq_getElem hlt] at h2
            exact Option.some.inj h2
          refine ⟨?_, ?_⟩
          · rw [hrun, List.map_cons, hdrop]
            have htail : ((GridIntoIterator.mk g ((x + 1 : Nat) : Int)
                  ((y : Nat) : Int)).run n).map (fun it => it.element)
                = g.grid.drop (y * w + x + o + 1) := by
              by_cases hx1 : x + 1 < w
              · have hA := (ihA (x + 1) y hx1 (by omega) (by omega)).1
                rw [show y * w + (x + 1) + o = y * w + x + o + 1 from by omega] at hA
                exact hA
              · have hx1e : x + 1 = w := by omega
                rw [hx1e]
                have hB := (ihB y (by omega) (by omega)).1
                rw [show y * w + w + o = y * w + x + o + 1 from by omega] at hB
                exact hB
            rw [htail]
          · rw [hrun, List.map_cons,
              rowMajorFrom_cons w (y * w + x) (w * h - o) hqlt]
            have hm : (y * w + x) % w = x := by
              rw [Nat.add_comm, Nat.add_mul_mod_self_right]
              exact Nat.mod_eq_of_lt hx
            have hd : (y * w + x) / w = y := by
              have hw0 : 0 < w := Nat.lt_of_le_of_lt (Nat.zero_le x) hx
              rw [Nat.add_comm, Nat.add_mul_div_right x y hw0, Nat.div_eq_of_lt hx]
              omega
            rw [hm, hd]
            have htail : ((GridIntoIterator.mk g ((x + 1 : Nat) : Int)
                  ((y : Nat) : Int)).run n).map GridIteratorItem.pos
                = rowMajorFrom w (y * w + x + 1) (w * h - o) := by
              by_cases hx1 : x + 1 < w
              · have hA := (ihA (x + 1) y hx1 (by omega) (by omega)).2
                rw [show y * w + (x + 1) = y * w + x + 1 from by omega] at hA
                exact hA
              · have hx1e : x + 1 = w := by omega
                rw [hx1e]
                have hB := (ihB y (by omega) (by omega)).2
                rw [show y * w + w = y * w + x + 1 from by omega] at hB
                exact hB
            rw [htail]
            rfl
        · -- the next read is already past the buffer: the run stops
          have hnone : g.grid[g.coords_to_index (x : Int) (y : Int)]? = none := by
            rw [hidx]
            apply List.getElem?_eq_none
            rw [hlen]
            omega
          have hnext : (GridIntoIterator.mk g (x : Int) (y : Int)).next
              = (none, GridIntoIterator.mk g ((x + 1 : Nat) : Int) (y : Int)) := by
            rw [GridIntoIterator.next_mid g w h hsz x y hx, hnone]
            rfl
          have hrun := GridIntoIterator.run_succ_none _ n _ hnext
          refine ⟨?_, ?_⟩
          · rw [hrun, List.map_nil]
            symm
            apply List.drop_eq_nil_of_le
            rw [hlen]
            omega
          · rw [hrun, List.map_nil]
            symm
            exact rowMajorFrom_eq_nil w _ _ (by omega)
      · -- end-of-row shape
        intro y hq hstop
        have hsm : (y + 1) * w = y * w + w := by ring
        by_cases hy1 : y + 1 = h
        · -- wrapping past the last row stops the iteration
          have hnext := GridIntoIterator.next_wrap_stop g w h hsz y hy1
          have hrun := GridIntoIterator.run_succ_none _ n _ hnext
          have hwh : y * w + w = w * h := by
            have h3 : (y + 1) * w = h * w := by rw [hy1]
            have h4 : h * w = w * h := Nat.mul_comm h w
            omega
          refine ⟨?_, ?_⟩
          · rw [hrun, List.map_nil]
            symm
            apply List.drop_eq_nil_of_le
            rw [hlen]
            omega
          · rw [hrun, List.map_nil]
            symm
            exact rowMajorFrom_eq_nil w _ _ (by omega)
        · -- wrap into row `y + 1`
          have hidx2 : g.coords_to_index ((0 : Nat) : Int) ((y + 1 : Nat) : Int)
              = y * w + w + o := by
            rw [coords_to_index_rowmajor g w h o hsz hoff 0 (y + 1) (by omega)]
            omega
          by_cases hqlt : y * w + w < w * h - o
          · have hw0 : 0 < w := by
              by_contra hw
              have hw' : w = 0 := by omega
              subst hw'
              omega
            have hlt : y * w + w + o < g.grid.length := by
              rw [hlen]
              omega
            obtain ⟨e, he⟩ : ∃ e,
                g.grid[g.coords_to_index ((0 : Nat) : Int) ((y + 1 : Nat) : Int)]?
                  = some e := by
              rw [hidx2]
              exact ⟨_, List.getElem?_eq_getElem hlt⟩
            have hnext : (GridIntoIterator.mk g (w : Int) (y : Int)).next
                = (some (GridIteratorItem.mk e ((0 : Nat) : Int) ((y + 1 : Nat) : Int)),
                   GridIntoIterator.mk g ((1 : Nat) : Int) ((y + 1 : Nat) : Int)) := by
              rw [GridIntoIterator.next_wrap_go g w h hsz y hy1, he]
              rfl
            have hrun := GridIntoIterator.run_succ_some _ n _ _ hnext
            have hdrop : g.grid.drop (y * w + w + o)
                = e :: g.grid.drop (y * w + w + o + 1) := by
              rw [List.drop_eq_getElem_cons hlt]
              congr 1
              have h2 : g.grid[y * w + w + o]? = some e := by
                rw [← hidx2]
                exact he
              rw [List.getElem?_eq_getElem hlt] at h2
              exact Option.some.inj h2
            refine ⟨?_, ?_⟩
            · rw [hrun, List.map_cons, hdrop]
              have htail : ((GridIntoIterator.mk g ((1 : Nat) : Int)
                    ((y + 1 : Nat) : Int)).run n).map (fun it => it.element)
                  = g.grid.drop (y * w + w + o + 1) := by
                by_cases hx1 : 1 < w
                · have hA := (ihA 1 (y + 1) hx1 (by omega) (by omega)).1
                  rw [show (y + 1) * w + 1 + o = y * w + w + o + 1 from by omega] at hA
                  exact hA
                · have hw1 : w = 1 := by omega
                  have hstate : (GridIntoIterator.mk g ((1 : Nat) : Int)
                        ((y + 1 : Nat) : Int))
                      = GridIntoIterator.mk g ((w : Nat) : Int)
                        ((y + 1 : Nat) : Int) := by
                    rw [hw1]
                  rw [hstate]
                  have hB := (ihB (y + 1) (by omega) (by omega)).1
                  rw [show (y + 1) * w + w + o = y * w + w + o + 1 from by omega] at hB
                  exact hB
              rw [htail]
            · rw [hrun, List.map_cons,
                rowMajorFrom_cons w (y * w + w) (w * h - o) hqlt]
              have hm : (y * w + w) % w = 0 := by
                rw [← hsm]
                exact Nat.mul_mod_left (y + 1) w
              have hd : (y * w + w) / w = y + 1 := by
                rw [← hsm]
                exact Nat.mul_div_cancel (y + 1) hw0
              rw [hm, hd]
              have htail : ((GridIntoIterator.mk g ((1 : Nat) : Int)
                    ((y + 1 : Nat) : Int)).run n).map GridIteratorItem.pos
                  = rowMajorFrom w (y * w + w + 1) (w * h - o) := by
                by_cases hx1 : 1 < w
                · have hA := (ihA 1 (y + 1) hx1 (by omega) (by omega)).2
                  rw [show (y + 1) * w + 1 = y * w + w + 1 from by omega] at hA
                  exact hA
                · have hw1 : w = 1 := by omega
                  have hstate : (GridIntoIterator.mk g ((1 : Nat) : Int)
                        ((y + 1 : Nat) : Int))
                      = GridIntoIterator.mk g ((w : Nat) : Int)
                        ((y + 1 : Nat) : Int) := by
                    rw [hw1]
                  rw [hstate]
                  have hB := (ihB (y + 1) (by omega) (by omega)).2
                  rw [show (y + 1) * w + w = y * w + w + 1 from by omega] at hB
                  exact hB
              rw [htail]
              rfl
          · -- the wrapped read is already past the buffer: the run stops
            have hnone : g.grid[g.coords_to_index ((0 : Nat) : Int)
                ((y + 1 : Nat) : Int)]? = none := by
              rw [hidx2]
              apply List.getElem?_eq_none
              rw [hlen]
              omega
            have hnext : (GridIntoIterator.mk g (w : Int) (y : Int)).next
                = (none,
                   GridIntoIterator.mk g ((1 : Nat) : Int) ((y + 1 : Nat) : Int)) := by
              rw [GridIntoIterator.next_wrap_go g w h hsz y hy1, hnone]
              rfl
            have hrun := GridIntoIterator.run_succ_none _ n _ hnext
            refine ⟨?_, ?_⟩
            · rw [hrun, List.map_nil]
              symm
              apply List.drop_eq_nil_of_le
              rw [hlen]
              omega
            · rw [hrun, List.map_nil]
              symm
              exact rowMajorFrom_eq_nil w _ _ (by omega)

/-- The full traversal from a fresh cursor: with stored offset `o ≤ w*h`,
the run yields the elements `g.grid.drop o`, labelled with the row-major
positions `0, …, (w*h - o) - 1`, for every fuel of at least `w*h - o`. -/
lemma iter_run_spec (g : Grid T) (w h o : Nat)
    (hsz : g.grid_size = (w, h)) (hoff : g.offset = o)
    (hlen : g.grid.length = w * h) (ho : o ≤ w * h) (h64 : w * h < USIZE)
    (fuel : Nat) (hfuel : w * h - o ≤ fuel) :
    (g.iter.run fuel).map (fun it => it.element) = g.grid.drop o ∧
    (g.iter.run fuel).map GridIteratorItem.pos = rowMajorFrom w 0 (w * h - o) := by
  have hspec := run_spec g w h o hsz hoff hlen ho h64 fuel
  by_cases hw : 0 < w
  · have hA := hspec.1 0 0 hw (by omega) (by omega)
    have hstate : GridIntoIterator.mk g ((0 : Nat) : Int) ((0 : Nat) : Int)
        = g.iter := rfl
    rw [hstate] at hA
    constructor
    · have h1 := hA.1
      rw [show 0 * w + 0 + o = o from by omega] at h1
      exact h1
    · have h1 := hA.2
      rw [show 0 * w + 0 = 0 from by omega] at h1
      exact h1
  · have hw0 : w = 0 := by omega
    have hB := hspec.2 0 (by omega) (by omega)
    have hstate : GridIntoIterator.mk g ((w : Nat) : Int) ((0 : Nat) : Int)
        = g.iter := by
      rw [hw0]
      rfl
    rw [hstate] at hB
    constructor
    · have h1 := hB.1
      rw [show 0 * w + w + o = o from by omega] at h1
      exact h1
    · have h1 := hB.2
      rw [show 0 * w + w = 0 from by omega] at h1
      exact h1

/-- C2 counterexample: the `5 × 5` grid constructed with requested offsets
`(2, 2)` (stored offset `12`) yields only `13` items, not
`width * height = 25`, even with ample fuel. -/
theorem iter_count_offset_counterexample :
    ((Grid.new Bool 5 5 2 2).iter.run 30).length = 13 ∧
    ¬ ((Grid.new Bool 5 5 2 2).iter.run 30).length = 5 * 5 := by
  refine ⟨by decide, by decide⟩

/-- C2 (amended): for every zero-offset grid satisfying the storage
invariant, `iter()` and `into_iter()` yield exactly `width * height` items
before terminating (the run is the same for every sufficiently large
fuel). -/
theorem iter_count_zero_offset (g : Grid T) (w h : Nat)
    (hsz : g.grid_size = (w, h)) (hoff : g.offset = 0)
    (hlen : g.grid.length = w * h) (h64 : w * h < USIZE)
    (fuel : Nat) (hfuel : w * h ≤ fuel) :
    (g.iter.run fuel).length = w * h ∧
    (g.into_iter.run fuel).length = w * h := by
  have hspec := iter_run_spec g w h 0 hsz hoff hlen (Nat.zero_le _) h64 fuel
    (by omega)
  have hl : (g.iter.run fuel).length = w * h := by
    have h1 := congrArg List.length hspec.2
    rw [List.length_map, rowMajorFrom_length] at h1
    omega
  exact ⟨hl, hl⟩

/-- C2 witness: a fresh `2 × 3` zero-offset grid yields `6` items. -/
theorem iter_count_zero_offset_witness :
    ((Grid.new Bool 2 3 0 0).iter.run 6).length = 2 * 3 ∧
    ((Grid.new Bool 2 3 0 0).into_iter.run 6).length = 2 * 3 :=
  iter_count_zero_offset (Grid.new Bool 2 3 0 0) 2 3 rfl (by decide) rfl
    (by decide) 6 (by decide)

/-- C3: iterating a zero-offset `w × h` grid via `iter()` (or the
definitionally identical `into_iter()`) yields exactly `w*h` items: their
elements are precisely the stored cells in storage (row-major) order, and
their positions are precisely `(k % w, k / w)` for `k = 0, …, w*h - 1` —
pairwise distinct, each inside `[0, w) × [0, h)`, in row-major order with
`x` varying fastest. -/
theorem iter_row_major_zero_offset (g : Grid T) (w h : Nat)
    (hsz : g.grid_size = (w, h)) (hoff : g.offset = 0)
    (hlen : g.grid.length = w * h) (h64 : w * h < USIZE)
    (fuel : Nat) (hfuel : w * h ≤ fuel) :
    (g.iter.run fuel).length = w * h ∧
    (g.iter.run fuel).map (fun it => it.element) = g.grid ∧
    (g.iter.run fuel).map GridIteratorItem.pos = rowMajorFrom w 0 (w * h) ∧
    ((g.iter.run fuel).map GridIteratorItem.pos).Nodup ∧
    (∀ it ∈ g.iter.run fuel,
      0 ≤ it.x ∧ it.x < (w : Int) ∧ 0 ≤ it.y ∧ it.y < (h : Int)) ∧
    g.into_iter = g.iter := by
  have hspec := iter_run_spec g w h 0 hsz hoff hlen (Nat.zero_le _) h64 fuel
    (by omega)
  have he : (g.iter.run fuel).map (fun it => it.element) = g.grid := by
    have h1 := hspec.1
    rw [List.drop_zero] at h1
    exact h1
  have hp : (g.iter.run fuel).map GridIteratorItem.pos = rowMajorFrom w 0 (w * h) := by
    have h1 := hspec.2
    rw [Nat.sub_zero] at h1
    exact h1
  have hlength : (g.iter.run fuel).length = w * h := by
    have h1 := congrArg List.length hp
    rw [List.length_map, rowMajorFrom_length, Nat.sub_zero] at h1
    exact h1
  refine ⟨hlength, he, hp, ?_, ?_, rfl⟩
  · rw [hp]
    exact rowMajorFrom_nodup w 0 (w * h)
  · intro it hit
    have hmem : GridIteratorItem.pos it ∈ rowMajorFrom w 0 (w * h) := by
      rw [← hp]
      exact List.mem_map_of_mem _ hit
    unfold rowMajorFrom at hmem
    rw [Nat.sub_zero] at hmem
    obtain ⟨k, hk, hke⟩ := List.mem_map.mp hmem
    have hkr : k < w * h := by
      have h2 := List.mem_range'_1.mp hk
      omega
    have hw0 : 0 < w := by
      by_contra hw
      have hw' : w = 0 := by omega
      subst hw'
      omega
    have hxv : it.x = ((k % w : Nat) : Int) := (congrArg Prod.fst hke).symm
    have hyv : it.y = ((k / w : Nat) : Int) := (congrArg Prod.snd hke).symm
    refine ⟨?_, ?_, ?_, ?_⟩
    · rw [hxv]
      exact Int.natCast_nonneg _
    · rw [hxv]
      exact_mod_cast Nat.mod_lt k hw0
    · rw [hyv]
      exact Int.natCast_nonneg _
    · rw [hyv]
      have h3 : k < h * w := by
        rw [Nat.mul_comm h w]
        exact hkr
      exact_mod_cast (Nat.div_lt_iff_lt_mul hw0).mpr h3

/-- C3 witness: the `2 × 2` fresh grid traversal evaluated concretely. -/
theorem iter_row_major_zero_offset_witness :
    ((Grid.new Bool 2 2 0 0).iter.run 4).length = 2 * 2 ∧
    ((Grid.new Bool 2 2 0 0).iter.run 4).map (fun it => it.element)
      = (Grid.new Bool 2 2 0 0).grid :=
  ⟨(iter_row_major_zero_offset (Grid.new Bool 2 2 0 0) 2 2 rfl (by decide) rfl
      (by decide) 4 (by decide)).1,
   (iter_row_major_zero_offset (Grid.new Bool 2 2 0 0) 2 2 rfl (by decide) rfl
      (by decide) 4 (by decide)).2.1⟩

/-- C10: for a `w × h` grid (`w, h ≥ 1`) whose stored offset `o` satisfies
`0 < o ≤ w*h`, the iterator yields exactly `w*h - o` items: the `k`-th item
carries position `(k % w, k / w)` and the element at physical index `k + o`
(each yielded cell `(x, y)` reads index `y*w + x + o`), the traversal stops
at the first read whose index reaches the buffer length `w*h`, and the last
`o` row-major positions are never yielded. -/
theorem iter_offset_truncated (g : Grid T) (w h o : Nat)
    (hw : 1 ≤ w) (hh : 1 ≤ h)
    (hsz : g.grid_size = (w, h)) (hoff : g.offset = o)
    (ho1 : 0 < o) (ho2 : o ≤ w * h)
    (hlen : g.grid.length = w * h) (h64 : w * h < USIZE)
    (fuel : Nat) (hfuel : w * h - o ≤ fuel) :
    (g.iter.run fuel).length = w * h - o ∧
    (g.iter.run fuel).map (fun it => it.element) = g.grid.drop o ∧
    (g.iter.run fuel).map GridIteratorItem.pos = rowMajorFrom w 0 (w * h - o) ∧
    g.into_iter = g.iter := by
  have hspec := iter_run_spec g w h o hsz hoff hlen ho2 h64 fuel hfuel
  refine ⟨?_, hspec.1, hspec.2, rfl⟩
  have h1 := congrArg List.length hspec.2
  rw [List.length_map, rowMajorFrom_length, Nat.sub_zero] at h1
  exact h1

/-- C10 witness: `Grid::new(5, 5, 2, 2)` (stored offset `12`) yields
`13` items, whose elements are the buffer with its first `12` cells
dropped. -/
theorem iter_offset_truncated_witness :
    ((Grid.new Bool 5 5 2 2).iter.run 13).length = 5 * 5 - 12 ∧
    ((Grid.new Bool 5 5 2 2).iter.run 13).map (fun it => it.element)
      = (Grid.new Bool 5 5 2 2).grid.drop 12 :=
  ⟨(iter_offset_truncated (Grid.new Bool 5 5 2 2) 5 5 12 (by decide) (by decide)
      rfl (by decide) (by decide) (by decide) rfl (by decide) 13 (by decide)).1,
   (iter_offset_truncated (Grid.new Bool 5 5 2 2) 5 5 12 (by decide) (by decide)
      rfl (by decide) (by decide) (by decide) rfl (by decide) 13 (by decide)).2.1⟩
